import Mathlib

/-!
Shallow embedding of the CPH-CRC scanner core (`src/app.py`): the batch file
and its duplicate guard (`load_existing_serials`, `ensure_csv`, `append_row`),
the recent-rows endpoint (`api_recent`), batch reset (`api_reset_batch`),
lookup fallback classification (`api_lookup`), and the finalize/export path
(`api_finalize`).  The on-disk CSV is modelled as an optional list of rows
(`none` = file absent, `some []` = file present but empty); the in-memory
`SEEN_SERIALS` set is a list of strings with membership as the set operation.
-/

namespace CPH

/-- Whitespace characters removed by Python `str.strip()` (ASCII subset). -/
def pySpace (c : Char) : Bool :=
  c = ' ' || c = '\t' || c = '\n' || c = '\r' || c = '\x0b' || c = '\x0c'

/-- Remove leading characters satisfying `pySpace`. -/
def lstripL (l : List Char) : List Char := l.dropWhile pySpace

/-- Remove trailing characters satisfying `pySpace`. -/
def rstripL (l : List Char) : List Char := (l.reverse.dropWhile pySpace).reverse

/-- Python `str.strip()` on a character list. -/
def stripL (l : List Char) : List Char := rstripL (lstripL l)

/-- Python `str.strip()`. -/
def pyStrip (s : String) : String := ⟨stripL s.data⟩

/-- Python `str.lower()` (ASCII). -/
def pyLower (s : String) : String := ⟨s.data.map Char.toLower⟩

/-- Python `str.upper()` (ASCII). -/
def pyUpper (s : String) : String := ⟨s.data.map Char.toUpper⟩

/-- Python `str.startswith(p)`. -/
def pyStartsWith (s p : String) : Bool := p.data.isPrefixOf s.data

/-- Python `str.isdigit()` (ASCII): nonempty and all digits. -/
def pyIsDigit (s : String) : Bool := !s.data.isEmpty && s.data.all Char.isDigit

/-- The configured header row (`CSV_HEADERS` default). -/
def CSV_HEADERS : List String :=
  ["Equipment Type", "Item Description", "Serial Number", "Temple Tag"]

/-- One CSV line, already split into fields. -/
abbrev Row := List String

/-- The raw `Serial Number` field of a row (column index 2 under the
configured header), as `csv.DictReader` exposes it; absent fields read `""`. -/
def serialField (r : Row) : String := r.getD 2 ""

/-- Trimmed, lowercased serial of a row: the deduplication key. -/
def normSerial (r : Row) : String := pyLower (pyStrip (serialField r))

/-- Data rows of a batch file: everything after the header line. -/
def dataRows (rows : List Row) : List Row := rows.drop 1

/-- State shared by all handlers: the working CSV (`none` when the file is
absent) and the in-memory `SEEN_SERIALS` set. -/
structure BatchState where
  file : Option (List Row)
  seen : List String
deriving DecidableEq

/-- Embeds `load_existing_serials`: clear the set, then for every data row
whose raw `Serial Number` is truthy (nonempty), record its stripped,
lowercased form. -/
def load_existing_serials (file : Option (List Row)) : List String :=
  match file with
  | none => []
  | some rows =>
    ((dataRows rows).filter (fun r => serialField r ≠ "")).map
      (fun r => pyLower (pyStrip (serialField r)))

/-- Embeds `ensure_csv`: if the CSV is absent or empty, (re)create it holding
just the header row. -/
def ensure_csv (st : BatchState) : BatchState :=
  match st.file with
  | none => { st with file := some [CSV_HEADERS] }
  | some [] => { st with file := some [CSV_HEADERS] }
  | some _ => st

/-- The duplicate-rejection message of `append_row`. -/
def DUP_MSG : String := "Duplicate Serial detected in this batch."

/-- A JSON request body for `/add`: each of the four record fields may be
absent (`none`) or present with a string value, mirroring `dict.get`. -/
structure Candidate where
  equipmentType : Option String
  itemDescription : Option String
  serialNumber : Option String
  templeTag : Option String
deriving DecidableEq

/-- The row `append_row` builds for an accepted candidate, in the code's
fixed order `[Type, Desc, Serial, Tag]` with `serial` already stripped. -/
def builtRow (data : Candidate) (serial : String) : Row :=
  [data.equipmentType.getD "", data.itemDescription.getD "", serial,
   data.templeTag.getD "N/A"]

/-- Embeds `append_row`: ensure the CSV, strip the candidate serial, reject a
nonempty serial whose lowercase form is in `SEEN_SERIALS` with no write;
otherwise append one row (Temple Tag defaulting to the sentinel "N/A" only
when the key is absent) and record the lowercased serial. -/
def append_row (st : BatchState) (data : Candidate) :
    BatchState × Bool × String :=
  let st1 := ensure_csv st
  let serial := pyStrip (data.serialNumber.getD "")
  if serial ≠ "" ∧ pyLower serial ∈ st1.seen then
    (st1, false, DUP_MSG)
  else
    ({ file := some (st1.file.getD [] ++ [builtRow data serial]),
       seen := if serial = "" then st1.seen else pyLower serial :: st1.seen },
     true, "Saved")

/-- Embeds `api_recent`: ensure the CSV, read all lines; with more than one
line return the last five data rows reversed, otherwise an empty list. -/
def api_recent (st : BatchState) : BatchState × List Row :=
  let st1 := ensure_csv st
  let rows := st1.file.getD []
  if 1 < rows.length then
    (st1, ((rows.drop 1).drop ((rows.drop 1).length - 5)).reverse)
  else
    (st1, [])

/-- Embeds `api_reset_batch`: rewrite the CSV as header-only (creating it when
absent, since Python `open(..., "w")` creates the file) and clear the set. -/
def api_reset_batch (_st : BatchState) : BatchState :=
  { file := some [CSV_HEADERS], seen := [] }

/-- Decimal digit character, as Python renders counter digits. -/
def digitChar (d : Nat) : Char :=
  match d with
  | 0 => '0' | 1 => '1' | 2 => '2' | 3 => '3' | 4 => '4'
  | 5 => '5' | 6 => '6' | 7 => '7' | 8 => '8' | _ => '9'

/-- Little-endian base-10 digits, structurally recursive on a fuel bound so
the kernel can evaluate it; agrees with `Nat.digits 10` when `n ≤ fuel`. -/
def decDigits : Nat → Nat → List Nat
  | 0, _ => []
  | fuel + 1, n => if n = 0 then [] else n % 10 :: decDigits fuel (n / 10)

/-- Decimal rendering of a natural number (digits most-significant first),
matching the Python f-string rendering of the collision counter. -/
def decRepr (n : Nat) : String := ⟨((decDigits n n).map digitChar).reverse⟩

/-- The export filename tried at counter `c`: `base.xlsx` for `c = 0`,
`base-c.xlsx` afterwards, exactly as `api_finalize` builds candidates. -/
def xlsxName (base : String) (c : Nat) : String :=
  if c = 0 then base ++ ".xlsx" else base ++ "-" ++ decRepr c ++ ".xlsx"

/-- Embeds the `while os.path.exists(dest_path)` loop of `api_finalize`: from
counter `c`, return the first counter whose candidate name is not taken.
`fuel` bounds the search; `freshName` supplies enough for termination. -/
def findFree (names : List String) (base : String) : Nat → Nat → Nat
  | c, 0 => c
  | c, fuel + 1 =>
    if xlsxName base c ∈ names then findFree names base (c + 1) fuel else c

/-- The export filename `api_finalize` settles on. -/
def freshName (names : List String) (base : String) : String :=
  xlsxName base (findFree names base 0 (names.length + 1))

/-- Full server state: the batch plus the archive of completed exports, each
export being its filename and the rows copied into its single sheet. -/
structure SysState where
  batch : BatchState
  completed : List (String × List Row)
deriving DecidableEq

/-- Filenames already present in the archive directory. -/
def archiveNames (st : SysState) : List String := st.completed.map Prod.fst

/-- Outcome of `/finalize`: a filename, or an error message with HTTP
status. -/
inductive FinalizeResult where
  | ok (filename : String)
  | err (message : String) (status : Nat)
deriving DecidableEq

/-- Embeds `api_finalize`: fail when the CSV is absent; otherwise pick a
fresh dated filename, copy every CSV row (header included) into the sheet,
archive it, delete the CSV and clear `SEEN_SERIALS`. -/
def api_finalize (today : String) (st : SysState) : SysState × FinalizeResult :=
  match st.batch.file with
  | none => (st, .err "No data to finalize" 400)
  | some rows =>
    let base := today ++ "-cph-crc"
    let fname := freshName (archiveNames st) base
    ({ batch := { file := none, seen := [] },
       completed := st.completed ++ [(fname, rows)] },
     .ok fname)

/-- A `/lookup` JSON response: the four record fields plus the
`found_in_snipe` flag. -/
structure LookupResponse where
  equipmentType : String
  itemDescription : String
  serialNumber : String
  templeTag : String
  foundInSnipe : Bool
deriving DecidableEq

/-- The fallback heuristic of `api_lookup`:
`term.upper().startswith("CPH") or (term.isdigit() and len(term) < 8)`. -/
def is_likely_tag (term : String) : Bool :=
  pyStartsWith (pyUpper term) "CPH" ||
    (pyIsDigit term && decide (term.length < 8))

/-- Embeds `api_lookup`. The registry call is external I/O, so its outcome is
a parameter: `some r` when `lookup_snipe` returned a record, `none` when it
returned nothing. On `none` the heuristic routes the trimmed term to Temple
Tag (tag-like) or Serial Number (otherwise). -/
def api_lookup (snipeResult : Option LookupResponse) (body : Option String) :
    LookupResponse :=
  let term := pyStrip (body.getD "")
  match snipeResult with
  | some r => r
  | none =>
    { equipmentType := "Computer"
      itemDescription := ""
      serialNumber := if is_likely_tag term then "" else term
      templeTag := if is_likely_tag term then term else ""
      foundInSnipe := false }

/-!
Interleaving model for concurrent `append_row` calls.  The code takes
`CSV_LOCK` twice per append — once inside `ensure_csv` and once around the
file write — but evaluates the duplicate check between the two, holding no
lock.  Atomic steps therefore are: (1) `ensure_csv` followed by the unlocked
duplicate check, and (2) the locked write-and-record block.  Any schedule of
these steps is a possible execution of two server threads.
-/

/-- Progress of one request thread through `append_row`. -/
inductive TPhase where
  | start
  | willWrite
  | finished
deriving DecidableEq

/-- One server thread running `append_row` for a candidate: its remaining
program and, when finished, the returned `(ok, message)` pair. -/
structure ThreadSt where
  cand : Candidate
  phase : TPhase
  res : Option (Bool × String)
deriving DecidableEq

/-- One atomic step of a thread inside `append_row` (see the section note for
the step boundaries, which follow the code's lock placement). -/
def threadStep (st : BatchState) (t : ThreadSt) : BatchState × ThreadSt :=
  match t.phase with
  | .start =>
    let st1 := ensure_csv st
    let serial := pyStrip (t.cand.serialNumber.getD "")
    if serial ≠ "" ∧ pyLower serial ∈ st1.seen then
      (st1, { t with phase := .finished, res := some (false, DUP_MSG) })
    else
      (st1, { t with phase := .willWrite })
  | .willWrite =>
    let serial := pyStrip (t.cand.serialNumber.getD "")
    ({ file := some (st.file.getD [] ++ [builtRow t.cand serial]),
       seen := if serial = "" then st.seen else pyLower serial :: st.seen },
     { t with phase := .finished, res := some (true, "Saved") })
  | .finished => (st, t)

/-- Run two threads `a` and `b` under a schedule: `true` steps `a`, `false`
steps `b`. -/
def runSched (sched : List Bool) (st : BatchState) (a b : ThreadSt) :
    BatchState × ThreadSt × ThreadSt :=
  match sched with
  | [] => (st, a, b)
  | true :: rest =>
    let p := threadStep st a
    runSched rest p.1 p.2 b
  | false :: rest =>
    let p := threadStep st b
    runSched rest p.1 a p.2

/-- Duplicate freedom: no two data rows of a batch file share an equal,
nonempty trimmed-lowercased Serial Number. -/
def noDupSerials (rows : List Row) : Prop :=
  (dataRows rows).Pairwise
    (fun r s => normSerial r = "" ∨ normSerial s = "" ∨ normSerial r ≠ normSerial s)

/-- The in-memory set covers the file: every nonempty normalized serial of a
data row is recorded in `SEEN_SERIALS`. -/
def seenCovers (st : BatchState) : Prop :=
  ∀ r ∈ dataRows (st.file.getD []), normSerial r ≠ "" → normSerial r ∈ st.seen

instance noDupSerials_decidable (rows : List Row) :
    Decidable (noDupSerials rows) := by
  unfold noDupSerials
  infer_instance

/-- The invariant `append_row` maintains: a duplicate-free file whose serials
are covered by the in-memory set. -/
def BatchInv (st : BatchState) : Prop :=
  noDupSerials (st.file.getD []) ∧ seenCovers st

/-- A sequence of (sequential) `append_row` calls. -/
def appendAll (st : BatchState) (cs : List Candidate) : BatchState :=
  cs.foldl (fun s c => (append_row s c).1) st

/-- Header discipline: whenever the CSV exists, its first line is the
configured header row. -/
def headerInv (st : BatchState) : Prop :=
  ∀ rows, st.file = some rows → ∃ tl, rows = CSV_HEADERS :: tl

/-!
Concrete requests and states used to evaluate the claims on small inputs.
-/

/-- A candidate with serial "ABC123". -/
def candA : Candidate := ⟨some "Laptop", some "Dell 7050", some "ABC123", none⟩

/-- The same serial re-submitted with different case and whitespace, and a
present-but-empty Temple Tag. -/
def candB : Candidate := ⟨some "Laptop", some "Dell 7050", some "abc123 ", some ""⟩

/-- A candidate whose serial needs trimming and whose Temple Tag is present
but empty. -/
def candE : Candidate := ⟨some "L", some "D", some " S9 ", some ""⟩

/-- A batch holding one data row with serial "ABC123", its `SEEN_SERIALS`
exactly as `load_existing_serials` produces it. -/
def stOneRow : BatchState :=
  ⟨some [CSV_HEADERS, ["Laptop", "Dell 7050", "ABC123", "N/A"]], ["abc123"]⟩

/-- Seven candidates appended in order for the `recent` scenario. -/
def cands7 : List Candidate :=
  [⟨some "t", some "d", some "s1", some "g1"⟩,
   ⟨some "t", some "d", some "s2", some "g2"⟩,
   ⟨some "t", some "d", some "s3", some "g3"⟩,
   ⟨some "t", some "d", some "s4", some "g4"⟩,
   ⟨some "t", some "d", some "s5", some "g5"⟩,
   ⟨some "t", some "d", some "s6", some "g6"⟩,
   ⟨some "t", some "d", some "s7", some "g7"⟩]

/-- The batch after appending `cands7` to a fresh state. -/
def st7 : BatchState := appendAll ⟨none, []⟩ cands7

/-- The seven data rows `st7` holds, in append order. -/
def rows7 : List Row :=
  [["t", "d", "s1", "g1"], ["t", "d", "s2", "g2"], ["t", "d", "s3", "g3"],
   ["t", "d", "s4", "g4"], ["t", "d", "s5", "g5"], ["t", "d", "s6", "g6"],
   ["t", "d", "s7", "g7"]]

/-- A server state with a header plus three data rows and an empty archive. -/
def sysThree : SysState :=
  ⟨⟨some [CSV_HEADERS, ["t", "d", "s1", "g1"], ["t", "d", "s2", "g2"],
      ["t", "d", "s3", "g3"]], ["s1", "s2", "s3"]⟩, []⟩

/-- A server state whose batch holds one data row, used for the same-day
double-finalize scenario. -/
def sysOne : SysState :=
  ⟨⟨some [CSV_HEADERS, ["t", "d", "s1", "g1"]], ["s1"]⟩, []⟩

/-- The day's second finalize: the batch was recreated (header-only) and the
archive holds the first export. -/
def sysSecond : SysState :=
  ⟨⟨some [CSV_HEADERS], []⟩, (api_finalize "20251012" sysOne).1.completed⟩

/-- A server state with no batch file at all. -/
def sysEmpty : SysState := ⟨⟨none, []⟩, []⟩

/-- A server state with a header-only batch. -/
def sysHeaderOnly : SysState := ⟨⟨some [CSV_HEADERS], []⟩, []⟩

/-- An `/add` request with serial "X", issued by two threads at once. -/
def raceCand : Candidate := ⟨some "t", some "d", some "X", none⟩

/-- Run from a fresh state under the schedule where both threads execute
their unlocked duplicate check before either takes the write lock. -/
def raceResult : BatchState × ThreadSt × ThreadSt :=
  runSched [true, false, true, false] ⟨none, []⟩
    ⟨raceCand, .start, none⟩ ⟨raceCand, .start, none⟩

lemma dropWhile_dropWhile (p : Char → Bool) (l : List Char) :
    (l.dropWhile p).dropWhile p = l.dropWhile p := by
  induction l with
  | nil => rfl
  | cons a t ih =>
    by_cases h : p a = true
    · simp [List.dropWhile_cons, h, ih]
    · simp [List.dropWhile_cons, h]

lemma dropWhile_eq_self_of_head (p : Char → Bool) (l : List Char)
    (h : ∀ c, l.head? = some c → p c = false) : l.dropWhile p = l := by
  cases l with
  | nil => rfl
  | cons a t =>
    have ha := h a rfl
    simp [List.dropWhile_cons, ha]

lemma head_dropWhile_false (p : Char → Bool) (l : List Char) :
    ∀ c, (l.dropWhile p).head? = some c → p c = false := by
  induction l with
  | nil => intro c h; simp at h
  | cons a t ih =>
    intro c h
    by_cases hp : p a = true
    · rw [List.dropWhile_cons] at h
      simp [hp] at h
      exact ih c h
    · rw [List.dropWhile_cons] at h
      simp [hp] at h
      rw [← h]
      simpa using hp

lemma lstripL_idem (l : List Char) : lstripL (lstripL l) = lstripL l :=
  dropWhile_dropWhile pySpace l

lemma rstripL_idem (l : List Char) : rstripL (rstripL l) = rstripL l := by
  unfold rstripL
  rw [List.reverse_reverse, dropWhile_dropWhile]

lemma head_lstripL_false (l : List Char) :
    ∀ c, (lstripL l).head? = some c → pySpace c = false :=
  head_dropWhile_false pySpace l

lemma rstripL_prefix (l : List Char) : ∃ t, l = rstripL l ++ t := by
  obtain ⟨s, hs⟩ := List.dropWhile_suffix (l := l.reverse) (p := pySpace)
  refine ⟨s.reverse, ?_⟩
  have := congrArg List.reverse hs
  simpa [rstripL] using this.symm

lemma head_rstripL (l : List Char) (c : Char) (h : (rstripL l).head? = some c) :
    l.head? = some c := by
  obtain ⟨t, ht⟩ := rstripL_prefix l
  rw [ht]
  cases hr : rstripL l with
  | nil => rw [hr] at h; simp at h
  | cons a s =>
    rw [hr] at h
    simp at h
    simp [h]

lemma lstripL_rstripL_lstripL (l : List Char) :
    lstripL (rstripL (lstripL l)) = rstripL (lstripL l) := by
  apply dropWhile_eq_self_of_head
  intro c hc
  exact head_lstripL_false l c (head_rstripL _ c hc)

lemma stripL_idem (l : List Char) : stripL (stripL l) = stripL l := by
  unfold stripL
  rw [lstripL_rstripL_lstripL, rstripL_idem]

lemma pyStrip_idem (s : String) : pyStrip (pyStrip s) = pyStrip s := by
  unfold pyStrip
  exact congrArg String.mk (stripL_idem s.data)

/-!
Facts about filename generation: decimal renderings are injective, candidate
names at distinct counters are distinct, and the collision loop therefore
finds an unused name within `names.length + 1` attempts.
-/

lemma decDigits_eq (fuel n : Nat) (h : n ≤ fuel) :
    decDigits fuel n = Nat.digits 10 n := by
  induction fuel generalizing n with
  | zero =>
    have hn : n = 0 := Nat.le_zero.mp h
    subst hn
    simp [decDigits]
  | succ fuel ih =>
    by_cases hn : n = 0
    · subst hn
      simp [decDigits]
    · rw [decDigits, if_neg hn,
        Nat.digits_def' (by norm_num : (1:ℕ) < 10) (Nat.pos_of_ne_zero hn)]
      have hd : n / 10 < n := Nat.div_lt_self (Nat.pos_of_ne_zero hn) (by norm_num)
      rw [ih (n / 10) (by omega)]

lemma digitChar_inj {d e : Nat} (hd : d < 10) (he : e < 10) :
    digitChar d = digitChar e → d = e := by
  interval_cases d <;> interval_cases e <;> decide

lemma map_digitChar_inj : ∀ l₁ l₂ : List Nat, (∀ x ∈ l₁, x < 10) →
    (∀ x ∈ l₂, x < 10) → l₁.map digitChar = l₂.map digitChar → l₁ = l₂ := by
  intro l₁
  induction l₁ with
  | nil =>
    intro l₂ _ _ h
    cases l₂ with
    | nil => rfl
    | cons b s => simp at h
  | cons a t ih =>
    intro l₂ h₁ h₂ h
    cases l₂ with
    | nil => simp at h
    | cons b s =>
      simp only [List.map_cons, List.cons.injEq] at h
      have hab := digitChar_inj (h₁ a (by simp)) (h₂ b (by simp)) h.1
      have hts := ih s (fun x hx => h₁ x (by simp [hx]))
        (fun x hx => h₂ x (by simp [hx])) h.2
      rw [hab, hts]

lemma decRepr_inj {m n : Nat} (h : decRepr m = decRepr n) : m = n := by
  unfold decRepr at h
  rw [decDigits_eq m m le_rfl, decDigits_eq n n le_rfl] at h
  injection h with h
  have h3 := List.reverse_injective h
  have h4 := map_digitChar_inj _ _
    (fun x hx => Nat.digits_lt_base (by norm_num) hx)
    (fun x hx => Nat.digits_lt_base (by norm_num) hx) h3
  calc m = Nat.ofDigits 10 (Nat.digits 10 m) := (Nat.ofDigits_digits 10 m).symm
    _ = Nat.ofDigits 10 (Nat.digits 10 n) := by rw [h4]
    _ = n := Nat.ofDigits_digits 10 n

lemma xlsxName_ne_of_pos (base : String) (d : Nat) (hd : d ≠ 0) :
    xlsxName base 0 ≠ xlsxName base d := by
  intro h
  unfold xlsxName at h
  rw [if_pos rfl, if_neg hd] at h
  have h1 := congrArg String.data h
  simp only [String.data_append, List.append_assoc] at h1
  have h2 := List.append_cancel_left h1
  simp at h2

lemma xlsxName_inj (base : String) : Function.Injective (xlsxName base) := by
  intro c d h
  by_cases hc : c = 0 <;> by_cases hd : d = 0
  · rw [hc, hd]
  · subst hc
    exact absurd h (xlsxName_ne_of_pos base d hd)
  · subst hd
    exact absurd h.symm (xlsxName_ne_of_pos base c hc)
  · unfold xlsxName at h
    rw [if_neg hc, if_neg hd] at h
    have h1 := congrArg String.data h
    simp only [String.data_append, List.append_assoc] at h1
    have h2 := List.append_cancel_left (List.append_cancel_left h1)
    have h3 := List.append_cancel_right h2
    exact decRepr_inj (String.ext h3)

lemma exists_free_name (names : List String) (base : String) :
    ∃ k, k ≤ names.length ∧ xlsxName base k ∉ names := by
  by_contra hall
  push_neg at hall
  have hsub : (List.range (names.length + 1)).map (xlsxName base) ⊆ names := by
    intro x hx
    obtain ⟨k, hk, rfl⟩ := List.mem_map.mp hx
    exact hall k (Nat.lt_succ_iff.mp (List.mem_range.mp hk))
  have hnd : ((List.range (names.length + 1)).map (xlsxName base)).Nodup :=
    (List.nodup_range _).map (xlsxName_inj base)
  have hle := (List.subperm_of_subset hnd hsub).length_le
  simp only [List.length_map, List.length_range] at hle
  omega

lemma findFree_free (names : List String) (base : String) :
    ∀ fuel c, (∃ k, c ≤ k ∧ k ≤ c + fuel ∧ xlsxName base k ∉ names) →
      xlsxName base (findFree names base c fuel) ∉ names := by
  intro fuel
  induction fuel with
  | zero =>
    intro c ⟨k, hck, hkc, hk⟩
    have : k = c := by omega
    subst this
    exact hk
  | succ fuel ih =>
    intro c ⟨k, hck, hkc, hk⟩
    rw [findFree]
    by_cases hmem : xlsxName base c ∈ names
    · rw [if_pos hmem]
      apply ih
      refine ⟨k, ?_, by omega, hk⟩
      rcases Nat.eq_or_lt_of_le hck with rfl | h
      · exact absurd hmem hk
      · exact h
    · rw [if_neg hmem]
      exact hmem

lemma findFree_min (names : List String) (base : String) :
    ∀ fuel c j, c ≤ j → j < findFree names base c fuel →
      xlsxName base j ∈ names := by
  intro fuel
  induction fuel with
  | zero =>
    intro c j hcj hj
    rw [findFree] at hj
    omega
  | succ fuel ih =>
    intro c j hcj hj
    rw [findFree] at hj
    by_cases hmem : xlsxName base c ∈ names
    · rw [if_pos hmem] at hj
      rcases Nat.eq_or_lt_of_le hcj with rfl | h
      · exact hmem
      · exact ih (c + 1) j h hj
    · rw [if_neg hmem] at hj
      omega

lemma freshName_not_mem (names : List String) (base : String) :
    freshName names base ∉ names := by
  obtain ⟨k, hk, hfree⟩ := exists_free_name names base
  exact findFree_free names base (names.length + 1) 0 ⟨k, by omega, by omega, hfree⟩

lemma freshName_min (names : List String) (base : String) :
    ∀ j < findFree names base 0 (names.length + 1), xlsxName base j ∈ names :=
  fun j hj => findFree_min names base (names.length + 1) 0 j (Nat.zero_le j) hj

/-!
Behaviour of `ensure_csv` and `append_row`, and preservation of the
duplicate-freedom invariant.
-/

lemma ensure_csv_seen (st : BatchState) : (ensure_csv st).seen = st.seen := by
  obtain ⟨f, s⟩ := st
  cases f with
  | none => rfl
  | some rows => cases rows <;> rfl

lemma ensure_csv_id (st : BatchState) (a : Row) (l : List Row)
    (h : st.file = some (a :: l)) : ensure_csv st = st := by
  obtain ⟨f, s⟩ := st
  simp only at h
  subst h
  rfl

lemma ensure_csv_file_cons (st : BatchState) :
    ∃ a l, (ensure_csv st).file = some (a :: l) := by
  obtain ⟨f, s⟩ := st
  cases f with
  | none => exact ⟨CSV_HEADERS, [], rfl⟩
  | some rows =>
    cases rows with
    | nil => exact ⟨CSV_HEADERS, [], rfl⟩
    | cons a l => exact ⟨a, l, rfl⟩

lemma dataRows_ensure (st : BatchState) :
    dataRows ((ensure_csv st).file.getD []) = dataRows (st.file.getD []) := by
  obtain ⟨f, s⟩ := st
  cases f with
  | none => rfl
  | some rows => cases rows <;> rfl

lemma BatchInv_ensure {st : BatchState} (h : BatchInv st) :
    BatchInv (ensure_csv st) := by
  obtain ⟨hnd, hcov⟩ := h
  refine ⟨?_, ?_⟩
  · unfold noDupSerials at hnd ⊢
    rw [dataRows_ensure]
    exact hnd
  · intro r hr hn
    rw [dataRows_ensure] at hr
    rw [ensure_csv_seen]
    exact hcov r hr hn

lemma serialField_builtRow (data : Candidate) (serial : String) :
    serialField (builtRow data serial) = serial := rfl

lemma normSerial_builtRow (data : Candidate) :
    normSerial (builtRow data (pyStrip (data.serialNumber.getD ""))) =
      pyLower (pyStrip (data.serialNumber.getD "")) := by
  unfold normSerial
  rw [serialField_builtRow, pyStrip_idem]

lemma normSerial_empty_of_serialField (r : Row) (h : serialField r = "") :
    normSerial r = "" := by
  unfold normSerial
  rw [h]
  rfl

lemma append_row_reject (st : BatchState) (data : Candidate)
    (h : pyStrip (data.serialNumber.getD "") ≠ "" ∧
      pyLower (pyStrip (data.serialNumber.getD "")) ∈ (ensure_csv st).seen) :
    append_row st data = (ensure_csv st, false, DUP_MSG) := by
  simp only [append_row]
  rw [if_pos h]

lemma append_row_accept (st : BatchState) (data : Candidate)
    (h : ¬(pyStrip (data.serialNumber.getD "") ≠ "" ∧
      pyLower (pyStrip (data.serialNumber.getD "")) ∈ (ensure_csv st).seen)) :
    append_row st data =
      ({ file := some ((ensure_csv st).file.getD [] ++
            [builtRow data (pyStrip (data.serialNumber.getD ""))]),
         seen := if pyStrip (data.serialNumber.getD "") = ""
           then (ensure_csv st).seen
           else pyLower (pyStrip (data.serialNumber.getD "")) ::
             (ensure_csv st).seen },
       true, "Saved") := by
  simp only [append_row]
  rw [if_neg h]

lemma BatchInv_append (st : BatchState) (data : Candidate) (h : BatchInv st) :
    BatchInv (append_row st data).1 := by
  have h1 := BatchInv_ensure h
  by_cases hdup : pyStrip (data.serialNumber.getD "") ≠ "" ∧
      pyLower (pyStrip (data.serialNumber.getD "")) ∈ (ensure_csv st).seen
  · rw [append_row_reject st data hdup]
    exact h1
  · rw [append_row_accept st data hdup]
    dsimp only
    obtain ⟨a, l, hfile⟩ := ensure_csv_file_cons st
    obtain ⟨hnd, hcov⟩ := h1
    unfold seenCovers at hcov
    rw [hfile] at hcov
    unfold noDupSerials at hnd
    rw [hfile] at hnd
    simp only [Option.getD_some] at hnd hcov
    unfold dataRows at hnd hcov
    simp only [List.drop_succ_cons, List.drop_zero] at hnd hcov
    constructor
    · unfold noDupSerials dataRows
      dsimp only
      rw [hfile]
      simp only [Option.getD_some, List.cons_append, List.drop_succ_cons,
        List.drop_zero]
      rw [List.pairwise_append]
      refine ⟨hnd, List.pairwise_singleton _ _, ?_⟩
      intro r hr b hb
      rw [List.mem_singleton] at hb
      subst hb
      by_cases hs : pyStrip (data.serialNumber.getD "") = ""
      · right; left
        rw [normSerial_builtRow, hs]
        rfl
      · by_cases hr0 : normSerial r = ""
        · left; exact hr0
        · right; right
          intro heq
          rw [normSerial_builtRow] at heq
          exact hdup ⟨hs, heq ▸ hcov r hr hr0⟩
    · intro r hr hnr
      dsimp only at hr ⊢
      rw [hfile] at hr
      unfold dataRows at hr
      simp only [Option.getD_some, List.cons_append, List.drop_succ_cons,
        List.drop_zero] at hr
      rcases List.mem_append.mp hr with hrl | hrr
      · have hmem := hcov r hrl hnr
        by_cases hs : pyStrip (data.serialNumber.getD "") = ""
        · rw [if_pos hs]
          exact hmem
        · rw [if_neg hs]
          exact List.mem_cons_of_mem _ hmem
      · rw [List.mem_singleton] at hrr
        subst hrr
        by_cases hs : pyStrip (data.serialNumber.getD "") = ""
        · rw [normSerial_builtRow, hs] at hnr
          exact absurd rfl hnr
        · rw [if_neg hs, normSerial_builtRow]
          exact List.mem_cons_self _ _

lemma BatchInv_appendAll (cs : List Candidate) (st : BatchState)
    (h : BatchInv st) : BatchInv (appendAll st cs) := by
  induction cs generalizing st with
  | nil => exact h
  | cons c cs ih => exact ih (append_row st c).1 (BatchInv_append st c h)

lemma load_covers (st : BatchState)
    (h : st.seen = load_existing_serials st.file) : seenCovers st := by
  intro r hr hn
  rw [h]
  obtain ⟨f, s⟩ := st
  cases f with
  | none => simp [dataRows] at hr
  | some rows =>
    simp only [Option.getD_some] at hr
    unfold load_existing_serials
    apply List.mem_map.mpr
    refine ⟨r, List.mem_filter.mpr ⟨hr, ?_⟩, rfl⟩
    have hsf : serialField r ≠ "" := by
      intro h0
      exact hn (normSerial_empty_of_serialField r h0)
    simpa using hsf

/-!
Behaviour of `api_finalize`, `api_recent` and the header discipline.
-/

lemma api_finalize_some (today : String) (st : SysState) (rows : List Row)
    (hfile : st.batch.file = some rows) :
    api_finalize today st =
      ({ batch := { file := none, seen := [] },
         completed := st.completed ++
           [(freshName (archiveNames st) (today ++ "-cph-crc"), rows)] },
       .ok (freshName (archiveNames st) (today ++ "-cph-crc"))) := by
  unfold api_finalize
  rw [hfile]

lemma api_finalize_none (today : String) (st : SysState)
    (hfile : st.batch.file = none) :
    api_finalize today st = (st, .err "No data to finalize" 400) := by
  unfold api_finalize
  rw [hfile]

lemma api_recent_state (st : BatchState) : (api_recent st).1 = ensure_csv st := by
  unfold api_recent
  dsimp only
  split <;> rfl

lemma ensure_csv_absent {st : BatchState}
    (h : st.file = none ∨ st.file = some []) :
    ensure_csv st = { st with file := some [CSV_HEADERS] } := by
  obtain ⟨f, s⟩ := st
  rcases h with h | h <;> simp only at h <;> subst h <;> rfl

lemma headerInv_ensure {st : BatchState} (h : headerInv st) :
    headerInv (ensure_csv st) := by
  intro rows hr
  obtain ⟨f, s⟩ := st
  cases f with
  | none =>
    simp only [ensure_csv, Option.some.injEq] at hr
    exact ⟨[], hr.symm⟩
  | some rs =>
    cases rs with
    | nil =>
      simp only [ensure_csv, Option.some.injEq] at hr
      exact ⟨[], hr.symm⟩
    | cons a l => exact h rows hr

lemma headerInv_append {st : BatchState} (data : Candidate)
    (h : headerInv st) : headerInv (append_row st data).1 := by
  have he := headerInv_ensure h
  by_cases hdup : pyStrip (data.serialNumber.getD "") ≠ "" ∧
      pyLower (pyStrip (data.serialNumber.getD "")) ∈ (ensure_csv st).seen
  · rw [append_row_reject st data hdup]
    exact he
  · rw [append_row_accept st data hdup]
    intro rows hr
    dsimp only at hr
    obtain ⟨a, l, hfile⟩ := ensure_csv_file_cons st
    obtain ⟨tl, htl⟩ := he (a :: l) hfile
    injection htl with h1 h2
    subst h1
    subst h2
    rw [hfile] at hr
    simp only [Option.getD_some, Option.some.injEq] at hr
    exact ⟨l ++ [builtRow data (pyStrip (data.serialNumber.getD ""))], hr.symm⟩

/-!
The claims.
-/

/-- C1: for every sequence of sequential `append_row` calls starting from a
batch whose in-memory duplicate set matches the batch file (as
`load_existing_serials` computes it) and which satisfies the batch
duplicate-freedom invariant, the batch file never contains two data rows
whose trimmed, case-normalized Serial Numbers are equal and nonempty; rows
with empty serials are unconstrained. -/
theorem C1_appends_preserve_noDupSerials (st : BatchState)
    (cs : List Candidate)
    (hmatch : st.seen = load_existing_serials st.file)
    (hnd : noDupSerials (st.file.getD [])) :
    noDupSerials ((appendAll st cs).file.getD []) :=
  (BatchInv_appendAll cs st ⟨hnd, load_covers st hmatch⟩).1

/-- Witness for C1: a fresh batch fed the serial "ABC123" and then its
case/whitespace variant "abc123 " stays duplicate-free. -/
theorem C1_witness :
    noDupSerials ((appendAll ⟨none, []⟩ [candA, candB]).file.getD []) :=
  C1_appends_preserve_noDupSerials ⟨none, []⟩ [candA, candB] rfl (by decide)

/-- C2: appending a serial whose trimmed, lowercased form already occurs
among the batch's recorded serials is rejected with the duplicate message
and writes nothing: the file is unchanged and the number of rows matching
that serial is unchanged. -/
theorem C2_duplicate_rejected_no_write (st : BatchState) (data : Candidate)
    (a : Row) (l : List Row) (hfile : st.file = some (a :: l))
    (hmatch : st.seen = load_existing_serials st.file)
    (hne : pyStrip (data.serialNumber.getD "") ≠ "")
    (hdup : pyLower (pyStrip (data.serialNumber.getD "")) ∈
      load_existing_serials st.file) :
    (append_row st data).2 = (false, DUP_MSG) ∧
    (append_row st data).1.file = st.file ∧
    (dataRows ((append_row st data).1.file.getD [])).countP
        (fun r => normSerial r == pyLower (pyStrip (data.serialNumber.getD ""))) =
      (dataRows (st.file.getD [])).countP
        (fun r => normSerial r == pyLower (pyStrip (data.serialNumber.getD ""))) := by
  have heq := ensure_csv_id st a l hfile
  have hseen : pyLower (pyStrip (data.serialNumber.getD "")) ∈
      (ensure_csv st).seen := by
    rw [heq, hmatch]
    exact hdup
  rw [append_row_reject st data ⟨hne, hseen⟩, heq]
  exact ⟨rfl, rfl, rfl⟩

/-- Witness for C2: with "ABC123" recorded, appending "abc123 " is rejected,
the file is untouched, and exactly one matching row remains. -/
theorem C2_witness :
    (append_row stOneRow candB).2 = (false, DUP_MSG) ∧
    (append_row stOneRow candB).1.file = stOneRow.file ∧
    (dataRows ((append_row stOneRow candB).1.file.getD [])).countP
      (fun r => normSerial r ==
        pyLower (pyStrip (candB.serialNumber.getD ""))) = 1 := by
  obtain ⟨h1, h2, h3⟩ := C2_duplicate_rejected_no_write stOneRow candB _ _
    rfl (by decide) (by decide) (by decide)
  refine ⟨h1, h2, ?_⟩
  rw [h3]
  decide

/-- C8: an accepted append writes exactly one row, with fields in the fixed
order Equipment Type, Item Description, Serial Number, Temple Tag, the
serial stored trimmed, and Temple Tag rendered "N/A" exactly when the field
is absent from the candidate (a present-but-empty tag is stored as ""). -/
theorem C8_append_writes_single_ordered_row (st : BatchState)
    (data : Candidate) (hacc : (append_row st data).2.1 = true) :
    (append_row st data).1.file =
      some ((ensure_csv st).file.getD [] ++
        [[data.equipmentType.getD "", data.itemDescription.getD "",
          pyStrip (data.serialNumber.getD ""), data.templeTag.getD "N/A"]]) ∧
    ((append_row st data).1.file.getD []).length =
      ((ensure_csv st).file.getD []).length + 1 ∧
    (data.templeTag = none →
      (builtRow data (pyStrip (data.serialNumber.getD ""))).getD 3 "" = "N/A") ∧
    (∀ t, data.templeTag = some t →
      (builtRow data (pyStrip (data.serialNumber.getD ""))).getD 3 "" = t) := by
  by_cases hdup : pyStrip (data.serialNumber.getD "") ≠ "" ∧
      pyLower (pyStrip (data.serialNumber.getD "")) ∈ (ensure_csv st).seen
  · rw [append_row_reject st data hdup] at hacc
    simp at hacc
  · rw [append_row_accept st data hdup]
    refine ⟨rfl, ?_, ?_, ?_⟩
    · dsimp only
      simp [List.length_append]
    · intro h
      have hshow : (builtRow data (pyStrip (data.serialNumber.getD ""))).getD 3 "" =
          data.templeTag.getD "N/A" := rfl
      rw [hshow, h]
      rfl
    · intro t ht
      have hshow : (builtRow data (pyStrip (data.serialNumber.getD ""))).getD 3 "" =
          data.templeTag.getD "N/A" := rfl
      rw [hshow, ht]
      rfl

/-- Witness for C8: from a fresh batch, an accepted candidate with serial
" S9 " and a present-but-empty Temple Tag is stored as the single row
["L", "D", "S9", ""], trimmed serial and empty (not "N/A") tag. -/
theorem C8_witness :
    (append_row ⟨none, []⟩ candE).1.file =
      some ((ensure_csv ⟨none, []⟩).file.getD [] ++ [["L", "D", "S9", ""]]) ∧
    (builtRow candE (pyStrip (candE.serialNumber.getD ""))).getD 3 "" = "" := by
  obtain ⟨h1, h2, h3, h4⟩ :=
    C8_append_writes_single_ordered_row ⟨none, []⟩ candE (by decide)
  exact ⟨h1, h4 "" rfl⟩

/-- C3: the code evaluates the duplicate check of `append_row` outside
`CSV_LOCK` (only `ensure_csv` and the file write take the lock), so the
schedule in which two threads carrying the same nonempty serial "X" both run
their check before either writes is a real execution; in it both calls
report success and the batch ends with two rows whose trimmed, lowercased
serials are equal and nonempty — refuting the claimed atomicity of
check-then-write. -/
theorem C3_unlocked_check_allows_duplicate_rows :
    raceResult.2.1.res = some (true, "Saved") ∧
    raceResult.2.2.res = some (true, "Saved") ∧
    raceResult.1.file =
      some [CSV_HEADERS, ["t", "d", "X", "N/A"], ["t", "d", "X", "N/A"]] ∧
    ¬ noDupSerials (raceResult.1.file.getD []) := by
  decide

/-- C4: when the batch file exists, finalize succeeds, archives a sheet that
is a row-for-row copy of the batch file (header included), deletes the batch
file, clears the in-memory set, and a subsequent `recent` returns an empty
list. -/
theorem C4_finalize_exports_and_rotates (today : String) (st : SysState)
    (rows : List Row) (hfile : st.batch.file = some rows) :
    ∃ name, (api_finalize today st).2 = .ok name ∧
      (api_finalize today st).1.completed = st.completed ++ [(name, rows)] ∧
      (api_finalize today st).1.batch.file = none ∧
      (api_finalize today st).1.batch.seen = [] ∧
      (api_recent (api_finalize today st).1.batch).2 = [] := by
  rw [api_finalize_some today st rows hfile]
  exact ⟨freshName (archiveNames st) (today ++ "-cph-crc"), rfl, rfl, rfl, rfl,
    rfl⟩

/-- Witness for C4: a header-plus-three-row batch exports four populated
rows under the dated name, and the batch state is rotated to empty. -/
theorem C4_witness :
    ((api_finalize "20251012" sysThree).1.completed.map
      (fun e => (e.1, e.2.length))) = [("20251012-cph-crc.xlsx", 4)] ∧
    (api_finalize "20251012" sysThree).1.batch.file = none ∧
    (api_finalize "20251012" sysThree).1.batch.seen = [] ∧
    (api_recent (api_finalize "20251012" sysThree).1.batch).2 = [] := by
  obtain ⟨name, h1, h2, h3, h4, h5⟩ :=
    C4_finalize_exports_and_rotates "20251012" sysThree _ rfl
  exact ⟨by decide, h3, h4, h5⟩

/-- C5: a successful finalize names its export `xlsxName base k` for the
dated base, where every smaller counter's candidate name is already taken
and the chosen name is not; hence a second successful finalize that same day
(over the grown archive) produces a different name and leaves the first
export in place, never overwriting it. -/
theorem C5_fresh_dated_export_names (today : String) (st : SysState)
    (rows : List Row) (hfile : st.batch.file = some rows) :
    ∃ k, (api_finalize today st).2 = .ok (xlsxName (today ++ "-cph-crc") k) ∧
      xlsxName (today ++ "-cph-crc") k ∉ archiveNames st ∧
      (∀ j < k, xlsxName (today ++ "-cph-crc") j ∈ archiveNames st) ∧
      (∀ st2 rows2, st2.completed = (api_finalize today st).1.completed →
        st2.batch.file = some rows2 →
        ∀ name2, (api_finalize today st2).2 = .ok name2 →
          name2 ≠ xlsxName (today ++ "-cph-crc") k ∧
          (xlsxName (today ++ "-cph-crc") k, rows) ∈
            (api_finalize today st2).1.completed) := by
  refine ⟨findFree (archiveNames st) (today ++ "-cph-crc") 0
    ((archiveNames st).length + 1), ?_, ?_, ?_, ?_⟩
  · rw [api_finalize_some today st rows hfile]
    rfl
  · exact freshName_not_mem (archiveNames st) (today ++ "-cph-crc")
  · exact freshName_min (archiveNames st) (today ++ "-cph-crc")
  · intro st2 rows2 hcomp hfile2 name2 hok2
    rw [api_finalize_some today st2 rows2 hfile2] at hok2
    have hname : freshName (archiveNames st2) (today ++ "-cph-crc") = name2 := by
      injection (show FinalizeResult.ok
        (freshName (archiveNames st2) (today ++ "-cph-crc")) = .ok name2
        from hok2) with hname
    have hcomp' : st2.completed = st.completed ++
        [(freshName (archiveNames st) (today ++ "-cph-crc"), rows)] := by
      rw [hcomp, api_finalize_some today st rows hfile]
    have hmem1 : xlsxName (today ++ "-cph-crc")
        (findFree (archiveNames st) (today ++ "-cph-crc") 0
          ((archiveNames st).length + 1)) ∈ archiveNames st2 := by
      show freshName (archiveNames st) (today ++ "-cph-crc") ∈ archiveNames st2
      have harch : archiveNames st2 = archiveNames st ++
          [freshName (archiveNames st) (today ++ "-cph-crc")] := by
        show List.map Prod.fst st2.completed = _
        rw [hcomp', List.map_append]
        rfl
      rw [harch]
      exact List.mem_append_right _ (List.mem_singleton.mpr rfl)
    constructor
    · rw [← hname]
      intro heq
      exact freshName_not_mem (archiveNames st2) (today ++ "-cph-crc")
        (heq ▸ hmem1)
    · rw [api_finalize_some today st2 rows2 hfile2]
      dsimp only
      rw [hcomp']
      exact List.mem_append_left _
        (List.mem_append_right _ (List.mem_singleton.mpr rfl))

/-- Witness for C5: finalizing a batch on 2025-10-12 with an empty archive
yields `20251012-cph-crc.xlsx`; finalizing again that day (batch recreated)
yields the distinct `20251012-cph-crc-1.xlsx` while the first file stays
archived. -/
theorem C5_witness :
    (api_finalize "20251012" sysOne).2 = .ok "20251012-cph-crc.xlsx" ∧
    (api_finalize "20251012" sysSecond).2 = .ok "20251012-cph-crc-1.xlsx" ∧
    ("20251012-cph-crc-1.xlsx" : String) ≠ "20251012-cph-crc.xlsx" ∧
    "20251012-cph-crc.xlsx" ∈ archiveNames (api_finalize "20251012" sysSecond).1 := by
  obtain ⟨k, h1, h2, h3, h4⟩ :=
    C5_fresh_dated_export_names "20251012" sysOne _ rfl
  have e1 : (api_finalize "20251012" sysOne).2 = .ok "20251012-cph-crc.xlsx" := by
    decide
  have ename : xlsxName ("20251012" ++ "-cph-crc") k = "20251012-cph-crc.xlsx" := by
    have e2 := h1.symm.trans e1
    injection e2 with e3
  obtain ⟨hne, hmem⟩ := h4 sysSecond [CSV_HEADERS] rfl rfl
    "20251012-cph-crc-1.xlsx" (by decide)
  rw [ename] at hne
  exact ⟨e1, by decide, hne, by decide⟩

/-- C6: finalize yields a NoData error exactly when the batch file is
absent, in which case the whole state (archive included) is untouched; a
header-only batch is considered present and exports a header-only sheet. -/
theorem C6_nodata_iff_absent (today : String) (st : SysState) :
    ((∃ name, (api_finalize today st).2 = .ok name) ↔ st.batch.file ≠ none) ∧
    (st.batch.file = none →
      (api_finalize today st).2 = .err "No data to finalize" 400 ∧
      (api_finalize today st).1 = st) ∧
    (st.batch.file = some [CSV_HEADERS] →
      ∃ name, (api_finalize today st).2 = .ok name ∧
        (name, [CSV_HEADERS]) ∈ (api_finalize today st).1.completed) := by
  cases hf : st.batch.file with
  | none =>
    rw [api_finalize_none today st hf]
    refine ⟨⟨?_, ?_⟩, fun _ => ⟨rfl, rfl⟩, fun h => ?_⟩
    · rintro ⟨name, hn⟩
      simp at hn
    · intro hne
      exact absurd rfl hne
    · simp at h
  | some rows =>
    rw [api_finalize_some today st rows hf]
    refine ⟨⟨?_, ?_⟩, fun h => ?_, fun h => ?_⟩
    · intro _
      simp
    · intro _
      exact ⟨freshName (archiveNames st) (today ++ "-cph-crc"), rfl⟩
    · simp at h
    · injection h with h
      subst h
      exact ⟨freshName (archiveNames st) (today ++ "-cph-crc"), rfl, by simp⟩

/-- Witness for C6: with no batch file finalize returns the NoData error and
changes nothing; with a header-only batch it succeeds and archives the
header-only sheet. -/
theorem C6_witness :
    (api_finalize "20251012" sysEmpty).2 = .err "No data to finalize" 400 ∧
    (api_finalize "20251012" sysEmpty).1 = sysEmpty ∧
    (∃ name, (api_finalize "20251012" sysHeaderOnly).2 = .ok name ∧
      (name, [CSV_HEADERS]) ∈ (api_finalize "20251012" sysHeaderOnly).1.completed) := by
  obtain ⟨-, h2, -⟩ := C6_nodata_iff_absent "20251012" sysEmpty
  obtain ⟨-, -, h3⟩ := C6_nodata_iff_absent "20251012" sysHeaderOnly
  obtain ⟨ha, hb⟩ := h2 rfl
  exact ⟨ha, hb, h3 rfl⟩

/-- C7: `recent` returns the last five data rows most-recent-first (the
five-element front of the reversed data rows), excluding the header, with
length `min 5 n` for `n` data rows, and the empty list when there are no
data rows. -/
theorem C7_recent_returns_last_five (st : BatchState) (a : Row)
    (ds : List Row) (hfile : st.file = some (a :: ds)) :
    (api_recent st).2 = ds.reverse.take 5 ∧
    (api_recent st).2.length = min 5 ds.length ∧
    (ds = [] → (api_recent st).2 = []) := by
  have hens := ensure_csv_id st a ds hfile
  have hmain : (api_recent st).2 = ds.reverse.take 5 := by
    unfold api_recent
    dsimp only
    rw [hens, hfile]
    dsimp only [Option.getD_some]
    cases ds with
    | nil => simp
    | cons d ds' =>
      rw [if_pos (by simp)]
      show ((d :: ds').drop ((d :: ds').length - 5)).reverse =
        (d :: ds').reverse.take 5
      rw [List.reverse_drop]
      rcases Nat.le_total (d :: ds').length 5 with h5 | h5
      · rw [Nat.sub_eq_zero_of_le h5, Nat.sub_zero]
        rw [List.take_of_length_le (by simp),
          List.take_of_length_le (by simpa using h5)]
      · have harith : (d :: ds').length - ((d :: ds').length - 5) = 5 := by
          omega
        rw [harith]
  refine ⟨hmain, ?_, fun hnil => by rw [hmain, hnil]; rfl⟩
  rw [hmain, List.length_take, List.length_reverse]

/-- Witness for C7: after appending seven rows to a fresh batch, `recent`
returns exactly the last five in reverse append order. -/
theorem C7_witness :
    (api_recent st7).2 =
      [["t", "d", "s7", "g7"], ["t", "d", "s6", "g6"], ["t", "d", "s5", "g5"],
       ["t", "d", "s4", "g4"], ["t", "d", "s3", "g3"]] := by
  rw [(C7_recent_returns_last_five st7 CSV_HEADERS rows7 (by decide)).1]
  decide

/-- C9: when the registry lookup returns nothing, the fallback classifier
marks the trimmed term tag-like exactly when its uppercase form starts with
"CPH" or it is all digits and shorter than eight characters; a tag-like
term fills Temple Tag and leaves Serial Number empty, any other term fills
Serial Number and leaves Temple Tag empty. -/
theorem C9_fallback_classifier (body : Option String) :
    (is_likely_tag (pyStrip (body.getD "")) =
      (pyStartsWith (pyUpper (pyStrip (body.getD ""))) "CPH" ||
       (pyIsDigit (pyStrip (body.getD "")) &&
         decide ((pyStrip (body.getD "")).length < 8)))) ∧
    (is_likely_tag (pyStrip (body.getD "")) = true →
      (api_lookup none body).templeTag = pyStrip (body.getD "") ∧
      (api_lookup none body).serialNumber = "") ∧
    (is_likely_tag (pyStrip (body.getD "")) = false →
      (api_lookup none body).serialNumber = pyStrip (body.getD "") ∧
      (api_lookup none body).templeTag = "") := by
  refine ⟨rfl, ?_, ?_⟩ <;> intro h <;>
    constructor <;> simp [api_lookup, h]

/-- Witness for C9: "CPH4021" is tag-like (Temple Tag="CPH4021", empty
serial); "9876543210987" is not (Serial Number is the term, empty tag). -/
theorem C9_witness :
    (api_lookup none (some "CPH4021")).templeTag = "CPH4021" ∧
    (api_lookup none (some "CPH4021")).serialNumber = "" ∧
    (api_lookup none (some "9876543210987")).serialNumber = "9876543210987" ∧
    (api_lookup none (some "9876543210987")).templeTag = "" := by
  obtain ⟨-, h1, -⟩ := C9_fallback_classifier (some "CPH4021")
  obtain ⟨-, -, h2⟩ := C9_fallback_classifier (some "9876543210987")
  obtain ⟨a1, a2⟩ := h1 (by decide)
  obtain ⟨b1, b2⟩ := h2 (by decide)
  exact ⟨a1, a2, b1, b2⟩

/-- C10: every core operation leaves the header discipline intact — a CSV
that exists afterwards starts with the configured header row; `append_row`
and `api_recent` on an absent or empty CSV first create it with the header;
and `api_reset_batch` on an absent CSV produces the header-only file rather
than failing. -/
theorem C10_header_discipline (st : BatchState) (data : Candidate)
    (h : headerInv st) :
    headerInv (ensure_csv st) ∧
    headerInv (append_row st data).1 ∧
    headerInv (api_recent st).1 ∧
    headerInv (api_reset_batch st) ∧
    ((st.file = none ∨ st.file = some []) →
      (∃ tl, (append_row st data).1.file = some (CSV_HEADERS :: tl)) ∧
      (api_recent st).1.file = some [CSV_HEADERS]) ∧
    (st.file = none →
      api_reset_batch st = { file := some [CSV_HEADERS], seen := [] }) := by
  refine ⟨headerInv_ensure h, headerInv_append data h, ?_, ?_, ?_, fun _ => rfl⟩
  · rw [api_recent_state]
    exact headerInv_ensure h
  · intro rows hr
    simp only [api_reset_batch, Option.some.injEq] at hr
    exact ⟨[], hr.symm⟩
  · intro habs
    have hens := ensure_csv_absent habs
    constructor
    · by_cases hdup : pyStrip (data.serialNumber.getD "") ≠ "" ∧
          pyLower (pyStrip (data.serialNumber.getD "")) ∈ (ensure_csv st).seen
      · refine ⟨[], ?_⟩
        rw [append_row_reject st data hdup, hens]
      · refine ⟨[builtRow data (pyStrip (data.serialNumber.getD ""))], ?_⟩
        rw [append_row_accept st data hdup]
        dsimp only
        rw [hens]
        rfl
    · rw [api_recent_state, hens]

/-- Witness for C10: from an absent CSV, append creates a header-first file,
recent creates the header-only file, and reset yields the header-only
state. -/
theorem C10_witness :
    (∃ tl, (append_row ⟨none, []⟩ candA).1.file = some (CSV_HEADERS :: tl)) ∧
    (api_recent ⟨none, []⟩).1.file = some [CSV_HEADERS] ∧
    api_reset_batch ⟨none, []⟩ = { file := some [CSV_HEADERS], seen := [] } := by
  obtain ⟨-, -, -, -, h5, h6⟩ :=
    C10_header_discipline ⟨none, []⟩ candA (fun rows hr => nomatch hr)
  obtain ⟨ha, hb⟩ := h5 (Or.inl rfl)
  exact ⟨ha, hb, h6 rfl⟩

end CPH


